import Mathlib

/-!
Verification development for the video2audio repository.

The Python source (src/video2audio/transcoder.py and src/video2audio/app.py)
is shallowly embedded below:

* dictionary tables become functions into `Option` (a missing key, i.e. a
  Python `KeyError` on subscript access or a `None` from `.get`, is `none`);
* Python truthiness (`if x:` on `None`/`0`/`""`) is modelled explicitly by
  the `truthy*` helpers;
* machine integers are `Int` (Python ints are unbounded, so no wrap-around);
* code that can raise returns `Option`/`Except`;
* the external tools (ffmpeg/ffprobe) are opaque: a probe result is a pair
  of an exit code and a parse outcome (`Option Json`, `none` standing for a
  `json.loads` failure), an encode run is an oracle telling whether the
  output artifact exists afterwards.
-/

namespace Video2Audio

/-! ### Python-semantics helpers -/

/-- Python truthiness of an optional integer: `None` and `0` are falsy. -/
def truthyInt : Option Int → Bool
  | some n => n != 0
  | none => false

/-- Python truthiness of an optional string: `None` and `""` are falsy. -/
def truthyStr : Option String → Bool
  | some s => s != ""
  | none => false

/-- Source: `a or b` for an optional int `a` and an int `b` (Python `or`). -/
def pyOrInt (a : Option Int) (b : Int) : Int :=
  match a with
  | some n => if n ≠ 0 then n else b
  | none => b

/-- Source: `a or b` for optional strings (Python `or`). -/
def pyOrStr (a b : Option String) : Option String :=
  if truthyStr a then a else b

/-- Python `str.lower()`; the strings this code lowercases (codec ids and
file extensions) are ASCII, where `Char.toLower` agrees with Python. -/
def pyLower (s : String) : String :=
  String.mk (s.toList.map Char.toLower)

/-- Digit-string to `Nat`, `none` unless all characters are ASCII digits. -/
def parseDigits (ds : List Char) : Option Nat :=
  match ds with
  | [] => none
  | _ =>
    if ds.all Char.isDigit then
      some (ds.foldl (fun a c => a * 10 + (c.toNat - 48)) 0)
    else none

/-- Model of Python `int(s)` on a string: surrounding whitespace is
stripped, an optional sign is allowed, the rest must be digits;
anything else raises `ValueError`, modelled as `none`. -/
def pyInt (s : String) : Option Int :=
  let cs := s.toList.dropWhile Char.isWhitespace
  let cs := (cs.reverse.dropWhile Char.isWhitespace).reverse
  match cs with
  | '-' :: ds => (parseDigits ds).map (fun n => -(n : Int))
  | '+' :: ds => (parseDigits ds).map (fun n => (n : Int))
  | ds => (parseDigits ds).map (fun n => (n : Int))

/-! ### CodecConfig (transcoder.py lines 20-56) -/

/-- Source: `CodecConfig.LOSSY = {"mp3", "aac"}` -/
def LOSSY : List String := ["mp3", "aac"]

/-- Source: `CodecConfig.LOSSLESS = {"wav", "flac"}` -/
def LOSSLESS : List String := ["wav", "flac"]

/-- Source: `CodecConfig.MAX_BITRATE` (accessed with `.get`, so a missing key and a
stored `None` both yield `none`). -/
def MAX_BITRATE : String → Option Int
  | "mp3" => some 320000
  | "aac" => some 256000
  | "wav" => none
  | "flac" => none
  | _ => none

/-- Source: `CodecConfig.DEFAULT_BITRATE` (accessed with `.get`). -/
def DEFAULT_BITRATE : String → Option Int
  | "mp3" => some 192000
  | "aac" => some 128000
  | "wav" => none
  | "flac" => none
  | _ => none

/-- Source: `CodecConfig.DEFAULT_SAMPLERATE` (subscript access: missing key raises,
hence `none` for unknown codecs). -/
def DEFAULT_SAMPLERATE : String → Option Int
  | "mp3" => some 44100
  | "aac" => some 48000
  | "wav" => some 44100
  | "flac" => some 96000
  | _ => none

/-- Source: `CodecConfig.SUPPORTED_SAMPLERATES` (subscript access). -/
def SUPPORTED_SAMPLERATES : String → Option (List Int)
  | "mp3" => some [32000, 44100, 48000]
  | "aac" => some [44100, 48000, 96000]
  | "wav" => some [44100, 48000, 96000, 192000]
  | "flac" => some [44100, 48000, 96000, 192000]
  | _ => none

/-- Source: `CodecConfig.DEFAULT_CHANNELS` (subscript access). -/
def DEFAULT_CHANNELS : String → Option Int
  | "mp3" => some 2
  | "aac" => some 2
  | "wav" => some 2
  | "flac" => some 2
  | _ => none

/-- Source: `CodecConfig.SUPPORTED_CHANNELS` (subscript access). -/
def SUPPORTED_CHANNELS : String → Option (List Int)
  | "mp3" => some [1, 2]
  | "aac" => some [1, 2]
  | "wav" => some [1, 2, 6, 8]
  | "flac" => some [1, 2, 6, 8]
  | _ => none

/-! ### Video2Audio._determine_bitrate (transcoder.py lines 110-136) -/

/-- Source: `f"{n // 1000}k"`: Python `//` floors; for a positive divisor `Int./`
(Euclidean division) agrees with it. -/
def kstr (n : Int) : String := toString (n / 1000) ++ "k"

/-- Source: `Video2Audio._determine_bitrate`. -/
def determine_bitrate (codec : String) (input_bitrate : Int) : Option String :=
  let max_bitrate := MAX_BITRATE codec
  let default_bitrate := DEFAULT_BITRATE codec
  if codec ∈ LOSSLESS then none
  else if input_bitrate ≤ 0 then
    -- `return f"{default_bitrate // 1000}k" if default_bitrate else None`
    match default_bitrate with
    | some d => if d ≠ 0 then some (kstr d) else none
    | none => none
  else if truthyInt default_bitrate = true ∧ input_bitrate < default_bitrate.getD 0 then
    -- `if default_bitrate and input_bitrate < default_bitrate`
    some (kstr (default_bitrate.getD 0))
  else
    -- `if max_bitrate: return f"{min(input_bitrate, max_bitrate) // 1000}k"`
    match max_bitrate with
    | some m => if m ≠ 0 then some (kstr (min input_bitrate m)) else none
    | none => none

/-! ### Video2Audio._validate_params (transcoder.py lines 138-151) -/

/-- Source: `Video2Audio._validate_params`: subscript access into the four tables,
so an unknown codec raises `KeyError`, modelled as `none`. -/
def validate_params (codec : String) (samplerate channels : Int) :
    Option (Int × Int) :=
  match SUPPORTED_SAMPLERATES codec, SUPPORTED_CHANNELS codec,
      DEFAULT_SAMPLERATE codec, DEFAULT_CHANNELS codec with
  | some sr_list, some ch_list, some dsr, some dch =>
    some ((if samplerate ∈ sr_list then samplerate else dsr),
      (if channels ∈ ch_list then channels else dch))
  | _, _, _, _ => none

/-! ### The resolution step of Video2Audio.convert (transcoder.py
lines 248-254), for `auto=True` -/

/-- Source: `bitrate = bitrate or self._determine_bitrate(codec, audio_info.bitrate)`. -/
def resolve_bitrate (codec : String) (bitrate : Option String)
    (probed_bitrate : Int) : Option String :=
  pyOrStr bitrate (determine_bitrate codec probed_bitrate)

/-- Source: `samplerate = samplerate or audio_info.samplerate`,
`channels = channels or audio_info.channels`, then
`samplerate, channels = self._validate_params(codec, samplerate, channels)`. -/
def resolve_samplerate_channels (codec : String)
    (samplerate channels : Option Int) (probed_sr probed_ch : Int) :
    Option (Int × Int) :=
  validate_params codec (pyOrInt samplerate probed_sr)
    (pyOrInt channels probed_ch)

/-! ### Video2Audio._build_ffmpeg_command (transcoder.py lines 153-218) -/

/-- The fixed loudness-normalization filter string (transcoder.py line 188). -/
def loudnorm_filter : String := "loudnorm=I=-16:TP=-1.5:LRA=11"

/-- Source: `if overwrite: cmd.append("-y")`. -/
def yflag (overwrite : Bool) : List String :=
  if overwrite then ["-y"] else []

/-- Source: `if loudnorm: cmd += ["-af", "loudnorm=I=-16:TP=-1.5:LRA=11"]`. -/
def loudnorm_args (loudnorm : Bool) : List String :=
  if loudnorm then ["-af", loudnorm_filter] else []

/-- Source: `format_map.get(codec, codec)` (transcoder.py lines 176-182). -/
def format_map (codec : String) : String :=
  match codec with
  | "mp3" => "mp3"
  | "aac" => "mp4"
  | "wav" => "wav"
  | "flac" => "flac"
  | _ => codec

/-- Source: `if codec in ["mp3", "aac"] and samplerate and samplerate > 48000:
samplerate = 48000` (transcoder.py lines 193-198). -/
def clamp_samplerate (codec : String) (samplerate : Option Int) : Option Int :=
  if codec ∈ ["mp3", "aac"] ∧ truthyInt samplerate = true ∧
      samplerate.getD 0 > 48000 then
    some 48000
  else samplerate

/-- Source: `if codec in ["wav", "flac"]: bitrate = None` (transcoder.py lines 201-202). -/
def null_lossless_bitrate (codec : String) (bitrate : Option String) :
    Option String :=
  if codec ∈ ["wav", "flac"] then none else bitrate

/-- Source: `if samplerate: cmd += ["-ar", str(samplerate)]`. -/
def ar_args (samplerate : Option Int) : List String :=
  if truthyInt samplerate then ["-ar", toString (samplerate.getD 0)] else []

/-- Source: `if channels: cmd += ["-ac", str(channels)]`. -/
def ac_args (channels : Option Int) : List String :=
  if truthyInt channels then ["-ac", toString (channels.getD 0)] else []

/-- Source: `if bitrate and codec in ["mp3", "aac"]: cmd += ["-b:a", bitrate]`. -/
def ba_args (codec : String) (bitrate : Option String) : List String :=
  if truthyStr bitrate ∧ codec ∈ ["mp3", "aac"] then
    ["-b:a", bitrate.getD ""]
  else []

/-- Source: `Video2Audio._build_ffmpeg_command`, as the concatenation of its
append steps in source order. -/
def build_ffmpeg_command (ffmpeg_bin input_file output_file codec : String)
    (bitrate : Option String) (samplerate channels : Option Int)
    (loudnorm overwrite : Bool) : List String :=
  let fmt := format_map codec
  let samplerate := clamp_samplerate codec samplerate
  let bitrate := null_lossless_bitrate codec bitrate
  [ffmpeg_bin] ++ yflag overwrite ++ ["-i", input_file, "-vn"]
    ++ loudnorm_args loudnorm ++ ar_args samplerate ++ ac_args channels
    ++ ba_args codec bitrate
    ++ ["-map_metadata", "0", "-f", fmt, output_file]

/-! ### app.py: codec defaults and settings validation (lines 48-115) -/

/-- One row of `CODEC_DEFAULTS` (app.py lines 48-57). -/
structure CodecDefault where
  bitrate : Option String
  samplerate : Int
  channels : Int
  lossless : Bool
deriving DecidableEq

/-- Source: `CODEC_DEFAULTS` (app.py lines 48-57); membership test models
`codec not in CODEC_DEFAULTS`. -/
def CODEC_DEFAULTS : String → Option CodecDefault
  | "mp3" => some ⟨some "192k", 44100, 2, false⟩
  | "aac" => some ⟨some "256k", 44100, 2, false⟩
  | "wav" => some ⟨none, 44100, 2, true⟩
  | "flac" => some ⟨none, 44100, 2, true⟩
  | _ => none

/-- Source: `VALID_SAMPLE_RATES.get(codec, [])` (app.py lines 59-64). -/
def VALID_SAMPLE_RATES : String → List Int
  | "mp3" => [32000, 44100, 48000]
  | "aac" => [44100, 48000]
  | "wav" => [44100, 48000, 88200, 96000, 192000]
  | "flac" => [44100, 48000, 88200, 96000, 192000]
  | _ => []

/-- Source: `TranscodeSettings` (app.py lines 122-129). -/
structure TranscodeSettings where
  codec : String := "mp3"
  bitrate : Option String := none
  samplerate : Option Int := none
  channels : Option Int := none
  lossless : Bool := false
deriving DecidableEq

/-- Source: `bitrate.replace("k", "")`: removes every `k`. -/
def stripK (s : String) : String :=
  String.mk (s.toList.filter (fun c => c ≠ 'k'))

/-- Source: `validate_settings` (app.py lines 67-115).  Returned dict keys match the
`TranscodeSettings` dataclass fields exactly, so the result is built as a
`TranscodeSettings` directly (cf. `TranscodeSettings(**validated)`). -/
def validate_settings (codec : String) (bitrate : Option String)
    (samplerate channels : Option Int) : TranscodeSettings :=
  let codec := pyLower codec
  let codec := if (CODEC_DEFAULTS codec).isSome then codec else "mp3"
  let defaults := (CODEC_DEFAULTS codec).getD ⟨some "192k", 44100, 2, false⟩
  let lossless := defaults.lossless
  let bitrate :=
    if lossless then none
    else if truthyStr bitrate then
      -- `try: kbps = int(bitrate.replace("k", "")) ... except: default`
      match pyInt (stripK (bitrate.getD "")) with
      | some kbps =>
        let kbps :=
          if codec = "mp3" then min (max kbps 32) 320
          else if codec = "aac" then min (max kbps 64) 256
          else kbps
        some (toString kbps ++ "k")
      | none => defaults.bitrate
    else defaults.bitrate
  let samplerate :=
    -- `if samplerate not in VALID_SAMPLE_RATES.get(codec, [])` (None is
    -- never a member, so an absent value also falls to the default)
    match samplerate with
    | some s => if s ∈ VALID_SAMPLE_RATES codec then some s
        else some defaults.samplerate
    | none => some defaults.samplerate
  let channels :=
    if codec = "mp3" ∨ codec = "aac" then
      match channels with
      | some c => if c = 1 ∨ c = 2 then some c else some 2
      | none => some 2
    else
      -- `if not channels: channels = defaults["channels"]`
      if truthyInt channels then channels else some defaults.channels
  ⟨codec, bitrate, samplerate, channels, lossless⟩

/-! ### app.py: clean_filename (lines 34-41) and pathlib stem -/

/-- Index of the last occurrence of `c` in `l`. -/
def lastIdxOf (c : Char) (l : List Char) : Option Nat :=
  match l.reverse.indexOf? c with
  | some j => some (l.length - 1 - j)
  | none => none

/-- Source: `os.path.splitext` on a bare file name (no directory separators occur in
this code's inputs): the extension starts at the last dot, unless every
character before that dot is itself a dot. -/
def splitext (filename : String) : String × String :=
  let cs := filename.toList
  match lastIdxOf '.' cs with
  | some i =>
    if (cs.take i).any (fun ch => ch ≠ '.') then
      (String.mk (cs.take i), String.mk (cs.drop i))
    else (filename, "")
  | none => (filename, "")

/-- Source: `re.sub(r"[^a-zA-Z0-9._-]", "_", name)`, per character. -/
def sanitizeChar (c : Char) : Char :=
  if c.isAlpha ∨ c.isDigit ∨ c = '.' ∨ c = '_' ∨ c = '-' then c else '_'

/-- Source: `re.sub(r"_+", "_", name)`: collapse runs of underscores. -/
def collapseUnderscores : List Char → List Char
  | [] => []
  | [a] => [a]
  | a :: b :: rest =>
    if a = '_' ∧ b = '_' then collapseUnderscores (b :: rest)
    else a :: collapseUnderscores (b :: rest)

/-- Source: `name.strip("_")`. -/
def stripUnderscores (l : List Char) : List Char :=
  ((l.dropWhile (fun c => c = '_')).reverse.dropWhile
    (fun c => c = '_')).reverse

/-- Source: `clean_filename` (app.py lines 34-41). -/
def clean_filename (filename : String) : String :=
  let ne := splitext filename
  let name := String.mk (stripUnderscores
    (collapseUnderscores (ne.1.toList.map sanitizeChar)))
  let name := if name = "" then "file" else name
  name ++ pyLower ne.2

/-- Source: `Path(f).stem` for a bare file name: pathlib takes the suffix to be
`name[i:]` for `i = name.rfind('.')` when `0 < i < len(name) - 1`. -/
def path_stem (f : String) : String :=
  let cs := f.toList
  match lastIdxOf '.' cs with
  | some i =>
    if 0 < i ∧ i < cs.length - 1 then String.mk (cs.take i) else f
  | none => f

/-! ### app.py: TranscodeManager (lines 136-217)

The manager owns three filename lists and the effective settings.  Saving
an upload, moving a batch from Pending to Active, the per-file `finally`
bookkeeping of `_process_files`, and `update_settings` are each one step
function; file storage is external, so "the output artifact exists" enters
the per-file step as a Boolean parameter. -/

structure ManagerState where
  upload_list : List String
  processing_list : List String
  processed_list : List String
  settings : TranscodeSettings
deriving DecidableEq

/-- Source: `TranscodeManager.__init__`: empty lists, `TranscodeSettings()`. -/
def initial_state : ManagerState :=
  ⟨[], [], [], ⟨"mp3", none, none, none, false⟩⟩

/-- The body of `save_uploads` for one file with a truthy filename
(app.py lines 149-159): sanitize, then append to the upload list unless
already present.  Only the upload list is consulted. -/
def save_upload (st : ManagerState) (filename : String) : ManagerState :=
  if clean_filename filename ∈ st.upload_list then st
  else { st with
    upload_list := st.upload_list ++ [clean_filename filename] }

/-- The bucket moves of `start_processing` (app.py lines 164-168): each
name currently in the upload list is removed from it (`list.remove`,
first occurrence) and appended to the processing list; other names are
ignored. -/
def start_processing_move (st : ManagerState) (filenames : List String) :
    ManagerState :=
  filenames.foldl
    (fun st f =>
      if f ∈ st.upload_list then
        { st with
          upload_list := st.upload_list.erase f,
          processing_list := st.processing_list ++ [f] }
      else st)
    st

/-- Source: `f"{Path(f).stem}.{output_ext}"` sanitized — the completed-bucket name
computed inside `_process_files` (app.py lines 176-178). -/
def output_name (f codec : String) : String :=
  clean_filename (path_stem f ++ "." ++ codec)

/-- The `finally` block of `_process_files` for one file (app.py lines
200-204): drop the name from the processing list if present and append
the output name to the processed list iff the artifact exists and the
output name is not already there.  The `try` body (`convert`) mutates no
bucket, so a raised-and-caught exception leaves no other trace here. -/
def process_file_step (st : ManagerState) (f : String)
    (output_exists : Bool) : ManagerState :=
  { st with
    processing_list :=
      if f ∈ st.processing_list then st.processing_list.erase f
      else st.processing_list,
    processed_list :=
      if output_exists = true ∧
          output_name f st.settings.codec ∉ st.processed_list then
        st.processed_list ++ [output_name f st.settings.codec]
      else st.processed_list }

/-- Source: `update_settings` (app.py lines 209-217): replace the effective
settings with the validated ones. -/
def update_settings_step (st : ManagerState) (codec : String)
    (bitrate : Option String) (samplerate channels : Option Int) :
    ManagerState :=
  { st with settings := validate_settings codec bitrate samplerate channels }

/-- The whole `_process_files` loop (app.py lines 173-204) over a batch.
`fails` tells which files' `convert` raises (the exception is caught at the
per-file boundary and logged); `ex` tells whether the output artifact
exists when the `finally` block runs.  Returns the final state and the
list of files whose failure was logged. -/
def process_files (st : ManagerState) (files : List String)
    (fails ex : String → Bool) : ManagerState × List String :=
  match files with
  | [] => (st, [])
  | f :: rest =>
    let st1 := process_file_step st f (ex f)
    let r := process_files st1 rest fails ex
    (r.1, (if fails f then [f] else []) ++ r.2)

/-- States reachable from the fresh manager by any sequence of operations.
The side conditions on `save` record the claim-relevant usage discipline:
`save_uploads` skips falsy filenames, and the `no re-upload while Active`
restriction under which Pending/Active exclusivity is provable. -/
inductive Reach : ManagerState → Prop where
  | init : Reach initial_state
  | save (st : ManagerState) (filename : String) : Reach st →
      filename ≠ "" → clean_filename filename ∉ st.processing_list →
      Reach (save_upload st filename)
  | start (st : ManagerState) (names : List String) : Reach st →
      Reach (start_processing_move st names)
  | proc (st : ManagerState) (f : String) (ex : Bool) : Reach st →
      Reach (process_file_step st f ex)
  | upd (st : ManagerState) (codec : String) (b : Option String)
      (s c : Option Int) : Reach st →
      Reach (update_settings_step st codec b s c)

/-- Interleavings of per-file processing steps and settings updates, as
observed by the shared manager state.  Alongside the final state, the run
records which settings each processed file was converted with — in the
source, `_process_files` reads `self.settings` afresh inside the loop
body for every file. -/
inductive AppEvent where
  | proc (f : String) (output_exists : Bool)
  | upd (codec : String) (bitrate : Option String)
      (samplerate channels : Option Int)

/-- Run a sequence of events, logging `(file, settings used)` pairs. -/
def run_events : ManagerState → List AppEvent →
    ManagerState × List (String × TranscodeSettings)
  | st, [] => (st, [])
  | st, .proc f ex :: rest =>
    let r := run_events (process_file_step st f ex) rest
    (r.1, (f, st.settings) :: r.2)
  | st, .upd codec b s c :: rest =>
    run_events (update_settings_step st codec b s c) rest

/-! ### Video2Audio._run_subprocess and ._get_audio_info (transcoder.py
lines 72-108)

The probing tool is an external process; a run of it is modelled by its
exit code, its standard error, and the outcome of `json.loads` on its
standard output (`none` when the output is not valid JSON, `some j` with
the parsed value otherwise).  JSON numbers are integers here — the three
fields this code reads are integral in ffprobe's output. -/

inductive Json where
  | null : Json
  | bool : Bool → Json
  | num : Int → Json
  | str : String → Json
  | arr : List Json → Json
  | obj : List (String × Json) → Json

/-- Python dict `.get(key)` on a parsed JSON object. -/
def jget (fields : List (String × Json)) (key : String) : Option Json :=
  match fields.find? (fun p => p.1 == key) with
  | some p => some p.2
  | none => none

/-- Python truthiness of a JSON value. -/
def truthyJson : Json → Bool
  | .null => false
  | .bool b => b
  | .num n => n != 0
  | .str s => s != ""
  | .arr xs => !xs.isEmpty
  | .obj fs => !fs.isEmpty

/-- Source: `a or b` on JSON values. -/
def pyOrJson (a b : Json) : Json :=
  if truthyJson a then a else b

/-- Python `int(x)` on a JSON value: numbers pass through, digit strings
are parsed, booleans coerce, anything else raises (`none`). -/
def pyIntOfJson : Json → Option Int
  | .num n => some n
  | .str s => pyInt s
  | .bool b => some (if b then 1 else 0)
  | _ => none

/-- Source: `AudioInfo` (transcoder.py lines 12-17). -/
structure AudioInfo where
  bitrate : Int
  samplerate : Int
  channels : Int
deriving DecidableEq

/-- A completed run of the probing tool as `_get_audio_info` sees it. -/
structure CompletedProcess where
  returncode : Int
  stdout : Option Json
  stderr : String

/-- Source: `Video2Audio._run_subprocess` (transcoder.py lines 72-80): non-zero
exit raises `RuntimeError` whose message carries the tool's stderr. -/
def run_subprocess (r : CompletedProcess) : Except String CompletedProcess :=
  if r.returncode ≠ 0 then .error ("Command failed:\n" ++ r.stderr)
  else .ok r

/-- Source: `info.get("streams", [{}])[0]` followed by use of the entry as a dict:
an absent `streams` key defaults to a one-empty-dict list; an empty list
raises `IndexError`; a non-list or a non-dict entry raises when
subscripted or `.get`-ed. -/
def first_stream : Json → Except String (List (String × Json))
  | .obj fields =>
    match (jget fields "streams").getD (.arr [.obj []]) with
    | .arr (s :: _) =>
      match s with
      | .obj sf => .ok sf
      | _ => .error "TypeError: stream entry is not a dict"
    | .arr [] => .error "IndexError: list index out of range"
    | _ => .error "TypeError: streams is not a list"
  | _ => .error "AttributeError: parsed output is not a dict"

/-- Source: `Video2Audio._get_audio_info` (transcoder.py lines 82-108): run the
tool, parse its output, take the first audio-stream entry, and read the
three fields with defaults `bit_rate → 0` (with an extra `or 0` collapsing
falsy values), `sample_rate → 44100`, `channels → 2`. -/
def get_audio_info (r : CompletedProcess) : Except String AudioInfo :=
  match run_subprocess r with
  | .error e => .error e
  | .ok r2 =>
    match r2.stdout with
    | none => .error "JSONDecodeError: invalid output"
    | some info =>
      match first_stream info with
      | .error e => .error e
      | .ok stream =>
        match pyIntOfJson (pyOrJson ((jget stream "bit_rate").getD (.num 0))
            (.num 0)),
          pyIntOfJson ((jget stream "sample_rate").getD (.num 44100)),
          pyIntOfJson ((jget stream "channels").getD (.num 2)) with
        | some b, some sr, some ch => .ok ⟨b, sr, ch⟩
        | _, _, _ => .error "ValueError: invalid literal for int"

/-- The "expected structured format" of the probing tool's output: a JSON
object whose `streams` entry (defaulting to a single empty stream when
absent) is a non-empty list headed by an object whose relevant fields, when
present, are integer-convertible.  This is the spec-side characterization
against which the failure condition of `get_audio_info` is compared. -/
def well_formed_probe_output (j : Json) : Bool :=
  match j with
  | .obj fields =>
    match (jget fields "streams").getD (.arr [.obj []]) with
    | .arr (.obj sf :: _) =>
      (pyIntOfJson (pyOrJson ((jget sf "bit_rate").getD (.num 0))
        (.num 0))).isSome
      && (pyIntOfJson ((jget sf "sample_rate").getD (.num 44100))).isSome
      && (pyIntOfJson ((jget sf "channels").getD (.num 2))).isSome
    | _ => false
  | _ => false

/-! ## Theorems -/

/-- Characterization of `_determine_bitrate` on a lossy codec with a
positive default and maximum. -/
theorem determine_bitrate_lossy (codec : String) (d m : Int)
    (hd : 0 < d) (hm : 0 < m) (hcl : codec ∉ LOSSLESS)
    (hdef : DEFAULT_BITRATE codec = some d)
    (hmax : MAX_BITRATE codec = some m) (probed : Int) :
    determine_bitrate codec probed =
      if probed ≤ 0 then some (kstr d)
      else if probed < d then some (kstr d)
      else some (kstr (min probed m)) := by
  have hd' : d ≠ 0 := by omega
  have hm' : m ≠ 0 := by omega
  simp only [determine_bitrate, hdef, hmax, if_neg hcl, truthyInt,
    Option.getD_some]
  by_cases h0 : probed ≤ 0
  · simp [h0, hd']
  · by_cases h1 : probed < d
    · simp [h0, h1, hd']
    · simp [h0, h1, hd', hm']

/-- C1 (amended).  Bitrate resolution for the four supported codecs: a
truthy caller override is used unchanged for every codec, lossless
included (it is discarded only later, by the command builder); without an
override, lossless codecs resolve to `None` regardless of the probed
value, and lossy codecs use the codec default when the probed bitrate is
non-positive or below the default and otherwise the minimum of the probed
bitrate and the codec maximum, formatted as an integer-kilobit token. -/
theorem c1_bitrate_resolution (codec : String)
    (hc : codec ∈ ["mp3", "aac", "wav", "flac"]) (b : String) (hb : b ≠ "")
    (probed : Int) :
    resolve_bitrate codec (some b) probed = some b
    ∧ (codec ∈ LOSSLESS → resolve_bitrate codec none probed = none)
    ∧ (codec ∈ LOSSY → probed ≤ 0 →
        resolve_bitrate codec none probed
          = some (kstr ((DEFAULT_BITRATE codec).getD 0)))
    ∧ (codec ∈ LOSSY → 0 < probed →
        probed < (DEFAULT_BITRATE codec).getD 0 →
        resolve_bitrate codec none probed
          = some (kstr ((DEFAULT_BITRATE codec).getD 0)))
    ∧ (codec ∈ LOSSY → (DEFAULT_BITRATE codec).getD 0 ≤ probed →
        resolve_bitrate codec none probed
          = some (kstr (min probed ((MAX_BITRATE codec).getD 0))))
    ∧ kstr 192000 = "192k" ∧ kstr 320000 = "320k" := by
  have hb' : truthyStr (some b) = true := by simp [truthyStr, hb]
  have hover : resolve_bitrate codec (some b) probed = some b := by
    simp [resolve_bitrate, pyOrStr, hb']
  have hres : resolve_bitrate codec none probed
      = determine_bitrate codec probed := by
    simp [resolve_bitrate, pyOrStr, truthyStr]
  fin_cases hc
  · -- mp3
    have hch := determine_bitrate_lossy "mp3" 192000 320000 (by omega)
      (by omega) (by decide) (by decide) (by decide) probed
    have hd : (DEFAULT_BITRATE "mp3").getD 0 = 192000 := by decide
    have hx : (MAX_BITRATE "mp3").getD 0 = 320000 := by decide
    rw [hd, hx]
    refine ⟨hover, fun h => absurd h (by decide), fun _ hp => ?_,
      fun _ hp hlt => ?_, fun _ hge => ?_, by decide, by decide⟩
    · rw [hres, hch, if_pos hp]
    · rw [hres, hch, if_neg (by omega), if_pos hlt]
    · rw [hres, hch, if_neg (by omega), if_neg (by omega)]
  · -- aac
    have hch := determine_bitrate_lossy "aac" 128000 256000 (by omega)
      (by omega) (by decide) (by decide) (by decide) probed
    have hd : (DEFAULT_BITRATE "aac").getD 0 = 128000 := by decide
    have hx : (MAX_BITRATE "aac").getD 0 = 256000 := by decide
    rw [hd, hx]
    refine ⟨hover, fun h => absurd h (by decide), fun _ hp => ?_,
      fun _ hp hlt => ?_, fun _ hge => ?_, by decide, by decide⟩
    · rw [hres, hch, if_pos hp]
    · rw [hres, hch, if_neg (by omega), if_pos hlt]
    · rw [hres, hch, if_neg (by omega), if_neg (by omega)]
  · -- wav
    exact ⟨hover, fun _ => by
        rw [hres]; simp [determine_bitrate, LOSSLESS],
      fun h => absurd h (by decide), fun h => absurd h (by decide),
      fun h => absurd h (by decide), by decide, by decide⟩
  · -- flac
    exact ⟨hover, fun _ => by
        rw [hres]; simp [determine_bitrate, LOSSLESS],
      fun h => absurd h (by decide), fun h => absurd h (by decide),
      fun h => absurd h (by decide), by decide, by decide⟩

/-- C1 counterexample: the claim asserts that for lossless codecs the
resolved bitrate is always `None` regardless of overridden values, but a
caller-supplied override on codec `wav` survives the resolution step of
`convert` unchanged. -/
theorem c1_counterexample :
    "wav" ∈ LOSSLESS
    ∧ resolve_bitrate "wav" (some "320k") 999000 = some "320k"
    ∧ resolve_bitrate "wav" (some "320k") 999000 ≠ none := by decide

/-- C1 witness: a concrete instantiation of `c1_bitrate_resolution`. -/
theorem c1_witness :
    resolve_bitrate "mp3" (some "128k") 250000 = some "128k" :=
  (c1_bitrate_resolution "mp3" (by decide) "128k" (by decide) 250000).1

/-- C2 (amended).  The unknown-codec fallback lives in the web layer:
`validate_settings` coerces any unrecognized codec to `mp3` and then
behaves identically to `mp3`.  The transcoder's own resolution does not
fall back: `_determine_bitrate` yields `None` for an unknown codec and
`_validate_params` raises `KeyError` (modelled as `none`). -/
theorem c2_unknown_codec_fallback (codec : String)
    (h : CODEC_DEFAULTS (pyLower codec) = none) :
    (∀ b s c, validate_settings codec b s c = validate_settings "mp3" b s c)
    ∧ (∀ pb, determine_bitrate codec pb = none)
    ∧ (∀ s c, validate_params codec s c = none) := by
  have h1 : codec ≠ "mp3" := by
    rintro rfl
    rw [show pyLower "mp3" = "mp3" from by decide] at h
    simp [CODEC_DEFAULTS] at h
  have h2 : codec ≠ "aac" := by
    rintro rfl
    rw [show pyLower "aac" = "aac" from by decide] at h
    simp [CODEC_DEFAULTS] at h
  have h3 : codec ≠ "wav" := by
    rintro rfl
    rw [show pyLower "wav" = "wav" from by decide] at h
    simp [CODEC_DEFAULTS] at h
  have h4 : codec ≠ "flac" := by
    rintro rfl
    rw [show pyLower "flac" = "flac" from by decide] at h
    simp [CODEC_DEFAULTS] at h
  have hmax : MAX_BITRATE codec = none := by
    unfold MAX_BITRATE; split <;> simp_all
  have hdef : DEFAULT_BITRATE codec = none := by
    unfold DEFAULT_BITRATE; split <;> simp_all
  have hsr : SUPPORTED_SAMPLERATES codec = none := by
    unfold SUPPORTED_SAMPLERATES; split <;> simp_all
  refine ⟨?_, ?_, ?_⟩
  · intro b s c
    have hm : pyLower "mp3" = "mp3" := by decide
    simp [validate_settings, h, hm]
  · intro pb
    have hl : codec ∉ LOSSLESS := by simp [LOSSLESS, h3, h4]
    simp only [determine_bitrate, hmax, hdef, hl, if_false,
      truthyInt, Option.getD_none]
    split <;> simp
  · intro s c
    simp [validate_params, hsr]

/-- C2 counterexample: at the transcoder's resolution layer, codec `ogg`
does not behave like `mp3` — bitrate determination differs and parameter
validation raises. -/
theorem c2_counterexample :
    determine_bitrate "ogg" 500000 = none
    ∧ determine_bitrate "mp3" 500000 = some "320k"
    ∧ determine_bitrate "ogg" 500000 ≠ determine_bitrate "mp3" 500000
    ∧ validate_params "ogg" 44100 2 = none := by decide

/-- C2 witness: a concrete instantiation of `c2_unknown_codec_fallback`. -/
theorem c2_witness :
    validate_settings "ogg" (some "128k") (some 44100) (some 2)
      = validate_settings "mp3" (some "128k") (some 44100) (some 2) :=
  (c2_unknown_codec_fallback "ogg" (by decide)).1 (some "128k")
    (some 44100) (some 2)

/-- C6 (amended).  For the four supported codecs, a nonzero caller
override is kept if it is in the codec's supported set and replaced by
the codec default otherwise; with no override the probed value is used if
supported, else the default; and a zero override is treated as absent
(Python `or` falls through to the probed value), not replaced by the
default. -/
theorem c6_supported_set_validation (codec : String)
    (hc : codec ∈ ["mp3", "aac", "wav", "flac"]) (s c ps pc : Int)
    (hs : s ≠ 0) (hcn : c ≠ 0) :
    resolve_samplerate_channels codec (some s) (some c) ps pc
      = some ((if s ∈ (SUPPORTED_SAMPLERATES codec).getD [] then s
          else (DEFAULT_SAMPLERATE codec).getD 0),
        (if c ∈ (SUPPORTED_CHANNELS codec).getD [] then c
          else (DEFAULT_CHANNELS codec).getD 0))
    ∧ resolve_samplerate_channels codec none none ps pc
      = some ((if ps ∈ (SUPPORTED_SAMPLERATES codec).getD [] then ps
          else (DEFAULT_SAMPLERATE codec).getD 0),
        (if pc ∈ (SUPPORTED_CHANNELS codec).getD [] then pc
          else (DEFAULT_CHANNELS codec).getD 0))
    ∧ resolve_samplerate_channels codec (some 0) (some 0) ps pc
      = resolve_samplerate_channels codec none none ps pc := by
  fin_cases hc <;>
    simp [resolve_samplerate_channels, validate_params, pyOrInt, hs, hcn,
      SUPPORTED_SAMPLERATES, SUPPORTED_CHANNELS, DEFAULT_SAMPLERATE,
      DEFAULT_CHANNELS]

/-- C6 counterexample: a caller-supplied sample-rate override of `0` is
not a member of mp3's supported set, yet it is not replaced by the codec
default — Python truthiness makes the code fall through to the probed
value instead. -/
theorem c6_counterexample :
    resolve_samplerate_channels "mp3" (some 0) (some 2) 48000 2
      = some (48000, 2)
    ∧ (0 : Int) ∉ (SUPPORTED_SAMPLERATES "mp3").getD []
    ∧ (some ((48000 : Int), (2 : Int))
        ≠ some ((DEFAULT_SAMPLERATE "mp3").getD 0, (2 : Int))) := by decide

/-- C6 witness: a concrete instantiation of
`c6_supported_set_validation`. -/
theorem c6_witness :
    resolve_samplerate_channels "mp3" (some 22050) (some 5) 44100 2
      = some (44100, 2) :=
  ((c6_supported_set_validation "mp3" (by decide) 22050 5 44100 2
    (by decide) (by decide)).1).trans (by decide)

/-- C10.  The settings-update validation clamps a parseable caller
bitrate into `[32, 320]` kbps for mp3 and `[64, 256]` kbps for aac and
re-emits it as `"<kbps>k"`; a bitrate whose `k`-stripped form does not
parse as an integer is replaced by the codec default; lossless codecs
always get `None`; and a caller bitrate does not win outright (e.g.
`"1000k"` for mp3 becomes `"320k"`). -/
theorem c10_settings_bitrate_clamp (b : String) (s c : Option Int)
    (k : Int) :
    (pyInt (stripK b) = some k →
      (validate_settings "mp3" (some b) s c).bitrate
        = some (toString (min (max k 32) 320) ++ "k")
      ∧ (validate_settings "aac" (some b) s c).bitrate
        = some (toString (min (max k 64) 256) ++ "k"))
    ∧ (pyInt (stripK b) = none →
      (validate_settings "mp3" (some b) s c).bitrate = some "192k"
      ∧ (validate_settings "aac" (some b) s c).bitrate = some "256k")
    ∧ (validate_settings "wav" (some b) s c).bitrate = none
    ∧ (validate_settings "flac" (some b) s c).bitrate = none
    ∧ (validate_settings "mp3" (some "1000k") s c).bitrate
        = some "320k" := by
  have hm : pyLower "mp3" = "mp3" := by decide
  have ha : pyLower "aac" = "aac" := by decide
  have hw : pyLower "wav" = "wav" := by decide
  have hf : pyLower "flac" = "flac" := by decide
  by_cases hb : b = ""
  · subst hb
    refine ⟨fun hpk => ?_, fun _ => ?_, ?_, ?_, ?_⟩
    · rw [show pyInt (stripK "") = none from by decide] at hpk
      exact Option.noConfusion hpk
    · constructor <;>
        simp [validate_settings, hm, ha, CODEC_DEFAULTS, truthyStr]
    · simp [validate_settings, hw, CODEC_DEFAULTS]
    · simp [validate_settings, hf, CODEC_DEFAULTS]
    · simp [validate_settings, hm, CODEC_DEFAULTS, truthyStr,
        show pyInt (stripK "1000k") = some 1000 from by decide]
      decide
  · have hb' : truthyStr (some b) = true := by simp [truthyStr, hb]
    refine ⟨fun hpk => ?_, fun hpk => ?_, ?_, ?_, ?_⟩
    · constructor <;>
        simp [validate_settings, hm, ha, CODEC_DEFAULTS, hb', hpk]
    · constructor <;>
        simp [validate_settings, hm, ha, CODEC_DEFAULTS, hb', hpk]
    · simp [validate_settings, hw, CODEC_DEFAULTS]
    · simp [validate_settings, hf, CODEC_DEFAULTS]
    · simp [validate_settings, hm, CODEC_DEFAULTS, truthyStr,
        show pyInt (stripK "1000k") = some 1000 from by decide]
      decide

/-- C10 witness: a concrete instantiation of
`c10_settings_bitrate_clamp`. -/
theorem c10_witness :
    (validate_settings "mp3" (some "128k") none none).bitrate
      = some "128k" :=
  (((c10_settings_bitrate_clamp "128k" none none 128).1
    (by decide)).1).trans (by decide)

/-! ### Helper lemmas about the command builder -/

/-- Sample-rate values that parameter resolution can produce: `none`, or a
member of some codec's supported table, or a codec default, or the
builder's clamp value 48000. -/
def resolved_samplerates : List (Option Int) :=
  [none, some 32000, some 44100, some 48000, some 96000, some 192000]

/-- Channel counts that parameter resolution can produce. -/
def resolved_channel_counts : List (Option Int) :=
  [none, some 1, some 2, some 6, some 8]

theorem mem_yflag (x : String) (ow : Bool) :
    x ∈ yflag ow ↔ ow = true ∧ x = "-y" := by
  cases ow <;> simp [yflag]

theorem mem_loudnorm_args (x : String) (ln : Bool) :
    x ∈ loudnorm_args ln ↔ ln = true ∧ (x = "-af" ∨ x = loudnorm_filter) := by
  cases ln <;> simp [loudnorm_args]

theorem mem_ar_args (x : String) (sr : Option Int) :
    x ∈ ar_args sr ↔
      truthyInt sr = true ∧ (x = "-ar" ∨ x = toString (sr.getD 0)) := by
  by_cases h : truthyInt sr = true <;> simp [ar_args, h]

theorem mem_ac_args (x : String) (ch : Option Int) :
    x ∈ ac_args ch ↔
      truthyInt ch = true ∧ (x = "-ac" ∨ x = toString (ch.getD 0)) := by
  by_cases h : truthyInt ch = true <;> simp [ac_args, h]

theorem mem_ba_args (x : String) (codec : String) (br : Option String) :
    x ∈ ba_args codec br ↔
      (truthyStr br = true ∧ codec ∈ ["mp3", "aac"]) ∧
        (x = "-b:a" ∨ x = br.getD "") := by
  by_cases h : truthyStr br = true ∧ codec ∈ ["mp3", "aac"] <;>
    simp [ba_args, h]

/-- Membership in the built command, disjunct by disjunct in source
order. -/
theorem mem_build_iff (bin i o codec : String) (br : Option String)
    (sr ch : Option Int) (ln ow : Bool) (x : String) :
    x ∈ build_ffmpeg_command bin i o codec br sr ch ln ow ↔
      x = bin ∨ (ow = true ∧ x = "-y") ∨ x = "-i" ∨ x = i ∨ x = "-vn"
      ∨ (ln = true ∧ (x = "-af" ∨ x = loudnorm_filter))
      ∨ (truthyInt (clamp_samplerate codec sr) = true ∧
          (x = "-ar" ∨ x = toString ((clamp_samplerate codec sr).getD 0)))
      ∨ (truthyInt ch = true ∧ (x = "-ac" ∨ x = toString (ch.getD 0)))
      ∨ ((truthyStr (null_lossless_bitrate codec br) = true ∧
          codec ∈ ["mp3", "aac"]) ∧
          (x = "-b:a" ∨ x = (null_lossless_bitrate codec br).getD ""))
      ∨ x = "-map_metadata" ∨ x = "0" ∨ x = "-f" ∨ x = format_map codec
      ∨ x = o := by
  simp only [build_ffmpeg_command, List.mem_append, List.mem_cons,
    List.mem_singleton, List.not_mem_nil, mem_yflag, mem_loudnorm_args,
    mem_ar_args, mem_ac_args, mem_ba_args, or_false, false_or, or_assoc]

/-- The builder's sample-rate clamp either keeps the value or replaces it
with 48000. -/
theorem clamp_samplerate_cases (codec : String) (sr : Option Int) :
    clamp_samplerate codec sr = sr ∨
      clamp_samplerate codec sr = some 48000 := by
  unfold clamp_samplerate
  split <;> simp

theorem toString_clamp_ne (codec : String) (sr : Option Int)
    (hsr : sr ∈ resolved_samplerates) (x : String)
    (hx : x ∈ ["-b:a", loudnorm_filter]) :
    toString ((clamp_samplerate codec sr).getD 0) ≠ x := by
  rcases clamp_samplerate_cases codec sr with h | h <;> rw [h] <;>
    fin_cases hsr <;> fin_cases hx <;> decide

theorem toString_ch_ne (ch : Option Int)
    (hch : ch ∈ resolved_channel_counts) (x : String)
    (hx : x ∈ ["-b:a", loudnorm_filter]) :
    toString (ch.getD 0) ≠ x := by
  fin_cases hch <;> fin_cases hx <;> decide

/-- C5.  The lossy sample-rate clamp: for mp3/aac any truthy sample rate
above 48000 is forced to 48000 by the command builder; this happens after
(and overrides) the supported-set validation — 96000 is in aac's
supported table and survives `_validate_params`, yet the built invocation
carries `-ar 48000`. -/
theorem c5_lossy_samplerate_clamp (codec : String)
    (hc : codec ∈ ["mp3", "aac"]) (s : Int) (hs : 48000 < s)
    (bin i o : String) (br : Option String) (ch : Option Int)
    (ln ow : Bool) :
    clamp_samplerate codec (some s) = some 48000
    ∧ (96000 : Int) ∈ (SUPPORTED_SAMPLERATES "aac").getD []
    ∧ validate_params "aac" 96000 2 = some (96000, 2)
    ∧ List.IsInfix ["-ar", "48000"]
        (build_ffmpeg_command bin i o "aac" br (some 96000) ch ln ow) := by
  refine ⟨?_, by decide, by decide, ?_⟩
  · unfold clamp_samplerate
    rw [if_pos]
    exact ⟨hc, by simp [truthyInt]; omega, by simp; omega⟩
  · refine ⟨[bin] ++ yflag ow ++ ["-i", i, "-vn"] ++ loudnorm_args ln,
      ac_args ch ++ ba_args "aac" (null_lossless_bitrate "aac" br)
        ++ ["-map_metadata", "0", "-f", format_map "aac", o], ?_⟩
    simp [build_ffmpeg_command, List.append_assoc,
      show clamp_samplerate "aac" (some 96000) = some 48000 from by decide,
      ar_args, truthyInt,
      show toString (48000 : Int) = "48000" from by decide]

/-- C5 witness: a concrete instantiation of `c5_lossy_samplerate_clamp`. -/
theorem c5_witness :
    List.IsInfix ["-ar", "48000"]
      (build_ffmpeg_command "ffmpeg" "a.mp4" "a.m4a" "aac" (some "256k")
        (some 96000) (some 2) false true) :=
  (c5_lossy_samplerate_clamp "aac" (by decide) 96000 (by decide)
    "ffmpeg" "a.mp4" "a.m4a" (some "256k") (some 2) false true).2.2.2

/-- C7.  Shape of the built invocation: it always carries `-vn` and
`-map_metadata 0`; the token right after the binary is `-y` iff overwrite
is requested; it carries the fixed loudness filter iff normalization is
requested; it carries a bitrate flag iff the codec is lossy and the
resolved bitrate is non-null (never for wav/flac); and it ends with the
format token (`mp4` for aac, identity for mp3/wav/flac) and the output
path.  The hypotheses restrict sample rate and channels to values
parameter resolution can produce and keep the free-form strings distinct
from the two non-constant tokens being counted. -/
theorem c7_built_invocation_shape (bin i o codec : String)
    (br : Option String) (sr ch : Option Int) (ln ow : Bool)
    (hc : codec ∈ ["mp3", "aac", "wav", "flac"])
    (hsr : sr ∈ resolved_samplerates)
    (hch : ch ∈ resolved_channel_counts)
    (hbr : br ≠ some "")
    (hbin1 : bin ≠ "-b:a") (hbin2 : bin ≠ loudnorm_filter)
    (hi1 : i ≠ "-b:a") (hi2 : i ≠ loudnorm_filter)
    (ho1 : o ≠ "-b:a") (ho2 : o ≠ loudnorm_filter)
    (hbv : ∀ v, br = some v → v ≠ loudnorm_filter) :
    "-vn" ∈ build_ffmpeg_command bin i o codec br sr ch ln ow
    ∧ List.IsInfix ["-map_metadata", "0"]
        (build_ffmpeg_command bin i o codec br sr ch ln ow)
    ∧ (((build_ffmpeg_command bin i o codec br sr ch ln ow).drop 1).head?
        = some "-y" ↔ ow = true)
    ∧ (loudnorm_filter ∈ build_ffmpeg_command bin i o codec br sr ch ln ow
        ↔ ln = true)
    ∧ ("-b:a" ∈ build_ffmpeg_command bin i o codec br sr ch ln ow
        ↔ (codec ∈ ["mp3", "aac"] ∧ br ≠ none))
    ∧ (∃ pre, build_ffmpeg_command bin i o codec br sr ch ln ow
        = pre ++ ["-f", format_map codec, o])
    ∧ format_map "aac" = "mp4" ∧ format_map "mp3" = "mp3"
    ∧ format_map "wav" = "wav" ∧ format_map "flac" = "flac" := by
  have hfmt1 : format_map codec ≠ "-b:a" := by fin_cases hc <;> decide
  have hfmt2 : format_map codec ≠ loudnorm_filter := by
    fin_cases hc <;> decide
  have hget : (null_lossless_bitrate codec br).getD "" ≠ loudnorm_filter := by
    unfold null_lossless_bitrate
    split
    · decide
    · rcases br with _ | v
      · decide
      · exact hbv v rfl
  refine ⟨?_, ?_, ?_, ?_, ?_, ?_, rfl, rfl, rfl, rfl⟩
  · simp [build_ffmpeg_command]
  · exact ⟨[bin] ++ yflag ow ++ ["-i", i, "-vn"] ++ loudnorm_args ln
        ++ ar_args (clamp_samplerate codec sr) ++ ac_args ch
        ++ ba_args codec (null_lossless_bitrate codec br),
      ["-f", format_map codec, o],
      by simp [build_ffmpeg_command, List.append_assoc]⟩
  · cases ow <;> simp [build_ffmpeg_command, yflag]
  · rw [mem_build_iff]
    simp [Ne.symm hbin2, Ne.symm hi2, Ne.symm ho2, Ne.symm hfmt2,
      Ne.symm (toString_clamp_ne codec sr hsr loudnorm_filter (by decide)),
      Ne.symm (toString_ch_ne ch hch loudnorm_filter (by decide)),
      Ne.symm hget,
      show loudnorm_filter ≠ "-y" from by decide,
      show loudnorm_filter ≠ "-i" from by decide,
      show loudnorm_filter ≠ "-vn" from by decide,
      show loudnorm_filter ≠ "-af" from by decide,
      show loudnorm_filter ≠ "-ar" from by decide,
      show loudnorm_filter ≠ "-ac" from by decide,
      show loudnorm_filter ≠ "-b:a" from by decide,
      show loudnorm_filter ≠ "-map_metadata" from by decide,
      show loudnorm_filter ≠ "0" from by decide,
      show loudnorm_filter ≠ "-f" from by decide]
  · rw [mem_build_iff]
    have hsc := Ne.symm (toString_clamp_ne codec sr hsr "-b:a" (by decide))
    have hcc := Ne.symm (toString_ch_ne ch hch "-b:a" (by decide))
    have hbin1' : "-b:a" ≠ bin := Ne.symm hbin1
    have hi1' : "-b:a" ≠ i := Ne.symm hi1
    have ho1' : "-b:a" ≠ o := Ne.symm ho1
    have hfmt1' : "-b:a" ≠ format_map codec := Ne.symm hfmt1
    fin_cases hc <;> rcases br with _ | v <;>
      simp_all [null_lossless_bitrate, truthyStr, format_map,
        loudnorm_filter]
  · exact ⟨[bin] ++ yflag ow ++ ["-i", i, "-vn"] ++ loudnorm_args ln
        ++ ar_args (clamp_samplerate codec sr) ++ ac_args ch
        ++ ba_args codec (null_lossless_bitrate codec br)
        ++ ["-map_metadata", "0"],
      by simp [build_ffmpeg_command, List.append_assoc]⟩

/-- C7 witness: a concrete instantiation of
`c7_built_invocation_shape`. -/
theorem c7_witness :
    "-b:a" ∈ build_ffmpeg_command "ffmpeg" "in.mp4" "out.mp3" "mp3"
        (some "192k") (some 44100) (some 2) true true
      ↔ ("mp3" ∈ ["mp3", "aac"] ∧ (some "192k" : Option String) ≠ none) :=
  (c7_built_invocation_shape "ffmpeg" "in.mp4" "out.mp3" "mp3"
    (some "192k") (some 44100) (some 2) true true (by decide) (by decide)
    (by decide) (by decide) (by decide) (by decide) (by decide) (by decide)
    (by decide) (by decide)
    (fun v hv => by simp at hv; subst hv; decide)).2.2.2.2.1

/-! ### Lemmas about the job lifecycle -/

/-- The inductive invariant behind Pending/Active exclusivity: the upload
list is duplicate-free and disjoint from the processing list. -/
def PendingActiveInv (st : ManagerState) : Prop :=
  st.upload_list.Nodup ∧
    ∀ x, x ∈ st.upload_list → x ∉ st.processing_list

theorem inv_save (st : ManagerState) (filename : String)
    (h : PendingActiveInv st)
    (hp : clean_filename filename ∉ st.processing_list) :
    PendingActiveInv (save_upload st filename) := by
  obtain ⟨hnd, hdisj⟩ := h
  unfold save_upload
  split
  · exact ⟨hnd, hdisj⟩
  · next hsafe =>
    refine ⟨?_, ?_⟩
    · simp [List.nodup_append, hnd, hsafe]
    · intro x hx
      rcases List.mem_append.1 hx with hx | hx
      · exact hdisj x hx
      · simp only [List.mem_singleton] at hx
        subst hx
        exact hp

theorem inv_move_one (st : ManagerState) (f : String)
    (h : PendingActiveInv st) :
    PendingActiveInv
      (if f ∈ st.upload_list then
        { st with
          upload_list := st.upload_list.erase f,
          processing_list := st.processing_list ++ [f] }
      else st) := by
  obtain ⟨hnd, hdisj⟩ := h
  split
  · next hf =>
    refine ⟨hnd.erase f, ?_⟩
    intro x hx hmem
    have hx2 := (List.Nodup.mem_erase_iff hnd).1 hx
    rcases List.mem_append.1 hmem with hm | hm
    · exact hdisj x hx2.2 hm
    · simp only [List.mem_singleton] at hm
      exact hx2.1 hm
  · exact ⟨hnd, hdisj⟩

theorem inv_start (st : ManagerState) (names : List String)
    (h : PendingActiveInv st) :
    PendingActiveInv (start_processing_move st names) := by
  induction names generalizing st with
  | nil => exact h
  | cons f rest ih =>
    simp only [start_processing_move, List.foldl_cons]
    exact ih _ (inv_move_one st f h)

theorem inv_proc (st : ManagerState) (f : String) (ex : Bool)
    (h : PendingActiveInv st) :
    PendingActiveInv (process_file_step st f ex) := by
  obtain ⟨hnd, hdisj⟩ := h
  refine ⟨hnd, ?_⟩
  intro x hx hmem
  simp only [process_file_step] at hx hmem
  split at hmem
  · exact hdisj x hx (List.erase_subset _ _ hmem)
  · exact hdisj x hx hmem

/-- C3 (amended).  Pending/Active exclusivity: in every state reachable
under the discipline that no filename is re-uploaded while its sanitized
name sits in the Active bucket, no filename is in both the Pending and the
Active bucket.  (Full three-way exclusivity fails — see the
counterexample.) -/
theorem c3_bucket_exclusivity (st : ManagerState) (h : Reach st)
    (f : String) :
    ¬ (f ∈ st.upload_list ∧ f ∈ st.processing_list) := by
  have hinv : PendingActiveInv st := by
    induction h with
    | init => exact ⟨List.nodup_nil, by simp [initial_state]⟩
    | save st name hr hne hp ih => exact inv_save st name ih hp
    | start st names hr ih => exact inv_start st names ih
    | proc st g ex hr ih => exact inv_proc st g ex ih
    | upd st codec b s c hr ih => exact ih
  rintro ⟨h1, h2⟩
  exact hinv.2 f h1 h2

/-- C3 counterexample: upload `a.mp4`, start processing it, then upload it
again — the unrestricted operations reach a state where `a.mp4` is in both
the Pending and the Active bucket, violating the claimed at-most-one-bucket
invariant.  (A same-named collision between Pending and Completed is
likewise reachable, since the Completed bucket stores output names: see
`process_file_step` with upload list `["a.mp3"]`.) -/
theorem c3_counterexample :
    "a.mp4" ∈ (save_upload (start_processing_move
        (save_upload initial_state "a.mp4") ["a.mp4"]) "a.mp4").upload_list
    ∧ "a.mp4" ∈ (save_upload (start_processing_move
        (save_upload initial_state "a.mp4") ["a.mp4"])
          "a.mp4").processing_list
    ∧ "a.mp3" ∈ (process_file_step
        ⟨["a.mp3"], ["a.mp4"], [], ⟨"mp3", none, none, none, false⟩⟩
        "a.mp4" true).upload_list
    ∧ "a.mp3" ∈ (process_file_step
        ⟨["a.mp3"], ["a.mp4"], [], ⟨"mp3", none, none, none, false⟩⟩
        "a.mp4" true).processed_list := by decide

/-- C3 witness: a concrete instantiation of `c3_bucket_exclusivity`. -/
theorem c3_witness :
    ¬ ("a.mp4" ∈ initial_state.upload_list
        ∧ "a.mp4" ∈ initial_state.processing_list) :=
  c3_bucket_exclusivity initial_state Reach.init "a.mp4"

theorem process_file_step_processing_subset (st : ManagerState)
    (f : String) (ex : Bool) :
    (process_file_step st f ex).processing_list ⊆ st.processing_list := by
  intro x hx
  simp only [process_file_step] at hx
  split at hx
  · exact List.erase_subset _ _ hx
  · exact hx

theorem process_file_step_nodup (st : ManagerState) (f : String)
    (ex : Bool) (h : st.processing_list.Nodup) :
    (process_file_step st f ex).processing_list.Nodup := by
  simp only [process_file_step]
  split
  · exact h.erase f
  · exact h

theorem process_file_step_not_mem (st : ManagerState) (f : String)
    (ex : Bool) (h : st.processing_list.Nodup) :
    f ∉ (process_file_step st f ex).processing_list := by
  simp only [process_file_step]
  split
  · intro hx
    exact ((List.Nodup.mem_erase_iff h).1 hx).1 rfl
  · next hf => exact hf

theorem process_files_processing_subset (st : ManagerState)
    (files : List String) (fails ex : String → Bool) :
    ((process_files st files fails ex).1).processing_list
      ⊆ st.processing_list := by
  induction files generalizing st with
  | nil => exact fun x hx => hx
  | cons a rest ih =>
    intro x hx
    exact process_file_step_processing_subset st a (ex a)
      (ih (process_file_step st a (ex a)) hx)

theorem process_files_state_eq (st : ManagerState) (files : List String)
    (fails fails2 ex : String → Bool) :
    (process_files st files fails ex).1
      = (process_files st files fails2 ex).1 := by
  induction files generalizing st with
  | nil => rfl
  | cons a rest ih => simpa [process_files] using ih _

/-- C4.  Per-file failure isolation and the completion rule: over a batch,
the resulting bucket state does not depend on which files' conversion
raised (the exception is caught per file and only logged, so the batch
always continues); every batch member ends up outside Active; and one
step's Completed list gains the file's output name exactly when the
artifact exists and the name is not already present — so membership
afterwards holds iff the artifact exists or the name was already there. -/
theorem c4_per_file_isolation (st : ManagerState) (files : List String)
    (fails fails2 ex : String → Bool) (f : String) (e : Bool)
    (h : st.processing_list.Nodup) :
    (process_files st files fails ex).1
        = (process_files st files fails2 ex).1
    ∧ (∀ g ∈ files, g ∉ ((process_files st files fails ex).1).processing_list)
    ∧ f ∉ (process_file_step st f e).processing_list
    ∧ ((process_file_step st f e).processed_list
        = if e = true ∧ output_name f st.settings.codec ∉ st.processed_list
          then st.processed_list ++ [output_name f st.settings.codec]
          else st.processed_list)
    ∧ (output_name f st.settings.codec
          ∈ (process_file_step st f e).processed_list
        ↔ (e = true ∨ output_name f st.settings.codec
            ∈ st.processed_list)) := by
  refine ⟨process_files_state_eq st files fails fails2 ex, ?_,
    process_file_step_not_mem st f e h, rfl, ?_⟩
  · induction files generalizing st with
    | nil => simp
    | cons a rest ih =>
      intro g hg
      rcases List.mem_cons.1 hg with rfl | hg'
      · intro hmem
        exact process_file_step_not_mem st g (ex g) h
          (process_files_processing_subset _ rest fails ex hmem)
      · exact ih (process_file_step st a (ex a))
          (process_file_step_nodup st a (ex a) h) g hg'
  · simp only [process_file_step]
    split
    · next hcond =>
      simp [hcond.1]
    · next hcond =>
      rcases Decidable.not_and_iff_or_not.1 hcond with he | hmem
      · simp only [he]
        simp
      · have : output_name f st.settings.codec ∈ st.processed_list := by
          by_contra hn
          exact hmem hn
        simp [this]

/-- C4 witness: a concrete instantiation of `c4_per_file_isolation`. -/
theorem c4_witness :
    "a.mp4" ∉ ((process_files
      ⟨[], ["a.mp4", "b.mp4"], [], ⟨"mp3", none, none, none, false⟩⟩
      ["a.mp4", "b.mp4"] (fun g => g = "a.mp4") (fun _ => true)).1
        ).processing_list :=
  (c4_per_file_isolation
    ⟨[], ["a.mp4", "b.mp4"], [], ⟨"mp3", none, none, none, false⟩⟩
    ["a.mp4", "b.mp4"] (fun g => g = "a.mp4") (fun _ => false)
    (fun _ => true) "a.mp4" true (by decide)).2.1 "a.mp4" (by decide)

/-- Success of `_get_audio_info` on a zero-exit run with parsed output `j`
is exactly well-formedness of `j`. -/
theorem get_audio_info_ok_iff (j : Json) (e : String) :
    (∃ a, get_audio_info ⟨0, some j, e⟩ = .ok a)
      ↔ well_formed_probe_output j = true := by
  unfold get_audio_info run_subprocess well_formed_probe_output
  simp only [show ¬ ((0 : Int) ≠ 0) from by omega, if_false]
  cases j with
  | obj fields =>
    simp only [first_stream]
    cases hs : (jget fields "streams").getD (.arr [.obj []]) with
    | arr xs =>
      cases xs with
      | nil => simp
      | cons hd tl =>
        cases hd with
        | obj sf =>
          cases h1 : pyIntOfJson (pyOrJson
              ((jget sf "bit_rate").getD (.num 0)) (.num 0)) with
          | none => simp [h1]
          | some b =>
            cases h2 : pyIntOfJson
                ((jget sf "sample_rate").getD (.num 44100)) with
            | none => simp [h1, h2]
            | some sr =>
              cases h3 : pyIntOfJson
                  ((jget sf "channels").getD (.num 2)) with
              | none => simp [h1, h2, h3]
              | some ch => simp [h1, h2, h3]
        | null => simp
        | bool b => simp
        | num n => simp
        | str s => simp
        | arr ys => simp
    | null => simp
    | bool b => simp
    | num n => simp
    | str s => simp
    | obj fs => simp
  | null => simp [first_stream]
  | bool b => simp [first_stream]
  | num n => simp [first_stream]
  | str s => simp [first_stream]
  | arr xs => simp [first_stream]

/-- C8.  Probe behaviour: a non-zero exit fails with an error carrying the
tool's stderr; a zero-exit run with output that is not the expected
structured format fails, and with well-formed output succeeds — the
success condition is exactly `exit code 0 ∧ output parses ∧ output
well-formed`; absent fields are substituted by `0`/`44100`/`2`; and only
the first stream entry matters. -/
theorem c8_probe_behaviour (r : CompletedProcess) (s : Json)
    (rest : List Json) (e : String) :
    (r.returncode ≠ 0 →
      get_audio_info r = .error ("Command failed:\n" ++ r.stderr))
    ∧ get_audio_info ⟨0, some (.obj []), e⟩ = .ok ⟨0, 44100, 2⟩
    ∧ get_audio_info ⟨0, some (.obj [("streams", .arr [.obj []])]), e⟩
        = .ok ⟨0, 44100, 2⟩
    ∧ get_audio_info ⟨0, some (.obj [("streams", .arr (s :: rest))]), e⟩
        = get_audio_info ⟨0, some (.obj [("streams", .arr [s])]), e⟩
    ∧ ((∃ a, get_audio_info r = .ok a) ↔
        (r.returncode = 0 ∧ ∃ j, r.stdout = some j
          ∧ well_formed_probe_output j = true)) := by
  obtain ⟨rc, stdout, stderr⟩ := r
  refine ⟨?_, rfl, rfl, ?_, ?_⟩
  · intro hrc
    simp [get_audio_info, run_subprocess, hrc]
  · rfl
  · by_cases hrc : rc = 0
    · subst hrc
      cases stdout with
      | none =>
        simp [get_audio_info, run_subprocess]
      | some j =>
        rw [get_audio_info_ok_iff j stderr]
        simp
    · simp [get_audio_info, run_subprocess, hrc]

/-- C8 witness: a concrete instantiation of `c8_probe_behaviour` — the
defaults are substituted when the probed stream carries no fields. -/
theorem c8_witness :
    get_audio_info ⟨0, some (.obj []), ""⟩ = .ok ⟨0, 44100, 2⟩ :=
  (c8_probe_behaviour ⟨0, some (.obj []), ""⟩ .null [] "").2.1

/-- C9.  Settings take effect at resolve time, not at submission: in a run
where one file is processed, the settings are updated, and a second file
is processed, the first file uses the pre-update settings and the second
the post-update settings — the processing step reads the shared settings
at its own step, never a snapshot, so a mid-batch update makes files of
the same batch resolve differently. -/
theorem c9_settings_at_resolve_time (st : ManagerState) (f1 f2 : String)
    (e1 e2 : Bool) (codec : String) (b : Option String)
    (s c : Option Int) :
    (run_events st [.proc f1 e1, .upd codec b s c, .proc f2 e2]).2
      = [(f1, st.settings), (f2, validate_settings codec b s c)]
    ∧ (validate_settings codec b s c ≠ st.settings →
        ((run_events st
            [.proc f1 e1, .upd codec b s c, .proc f2 e2]).2.map Prod.snd
          ≠ [st.settings, st.settings])) := by
  have h1 : (run_events st [.proc f1 e1, .upd codec b s c, .proc f2 e2]).2
      = [(f1, st.settings), (f2, validate_settings codec b s c)] := by
    simp [run_events, process_file_step, update_settings_step]
  refine ⟨h1, fun hne => ?_⟩
  rw [h1]
  simp [hne]

/-- C9 witness: a concrete instantiation of
`c9_settings_at_resolve_time`. -/
theorem c9_witness :
    (run_events initial_state
      [.proc "a.mp4" true,
        .upd "aac" none none none,
        .proc "b.mp4" true]).2.map Prod.snd
    ≠ [initial_state.settings, initial_state.settings] :=
  (c9_settings_at_resolve_time initial_state "a.mp4" "b.mp4" true true
    "aac" none none none).2 (by decide)

end Video2Audio
